import Mathlib

/-!
Verification of the HSX mailbox subsystem (SVC module 0x05).

The repository ships the ABI header `src/include/hsx_mailbox.h` (constants,
wire structures, calling convention), the user-space wrapper declarations
`src/examples/lib/hsx_mailbox.h`, and example programs that call the
wrappers.  The executive-side engine itself (ring buffer store, namespace
registry, handle table, trap dispatcher) and the wrapper bodies are not in
the source tree; those parts are modelled from the specification, each such
definition carrying a doc comment that says so.  All numeric constants come
verbatim from `src/include/hsx_mailbox.h` and `src/include/hsx_hal_types.h`.
-/

namespace HSX

/-- Status codes, from src/include/hsx_mailbox.h. -/
def HSX_MBX_STATUS_OK : Nat := 0x0000

def HSX_MBX_STATUS_WOULDBLOCK : Nat := 0x0001

def HSX_MBX_STATUS_INVALID_HANDLE : Nat := 0x0002

def HSX_MBX_STATUS_NO_DATA : Nat := 0x0003

def HSX_MBX_STATUS_MSG_TOO_LARGE : Nat := 0x0004

def HSX_MBX_STATUS_NO_DESCRIPTOR : Nat := 0x0005

def HSX_MBX_STATUS_TIMEOUT : Nat := 0x0007

def HSX_MBX_STATUS_INTERNAL_ERROR : Nat := 0x00FF

/-- Flag bits, from src/include/hsx_mailbox.h. -/
def HSX_MBX_FLAG_STDOUT : Nat := 0x0001

def HSX_MBX_FLAG_STDERR : Nat := 0x0002

def HSX_MBX_FLAG_OOB : Nat := 0x0004

def HSX_MBX_FLAG_OVERRUN : Nat := 0x0008

/-- Timeout sentinels, from src/include/hsx_mailbox.h. -/
def HSX_MBX_TIMEOUT_POLL : Nat := 0x0000

def HSX_MBX_TIMEOUT_INFINITE : Nat := 0xFFFF

def HSX_MBX_MAX_NAME_BYTES : Nat := 32

def HSX_MBX_DEFAULT_RING_CAPACITY : Nat := 64

/-- The wire header `hsx_mbx_msg_header_t` is four uint16 fields: 8 bytes. -/
def HSX_MBX_MSG_HEADER_BYTES : Nat := 8

/-- Bytes of a UTF-8/ASCII string, used to model C byte strings. -/
def strBytes (s : String) : List Nat := s.data.map Char.toNat

/-- Mailbox name prefixes, from src/include/hsx_mailbox.h, as byte strings. -/
def HSX_MBX_PREFIX_PID : List Nat := strBytes "pid:"

def HSX_MBX_PREFIX_SVC : List Nat := strBytes "svc:"

def HSX_MBX_PREFIX_APP : List Nat := strBytes "app:"

def HSX_MBX_PREFIX_SHARED : List Nat := strBytes "shared:"

/-- Well-known stdio mailbox names, from src/include/hsx_mailbox.h. -/
def HSX_MBX_STDIO_IN : List Nat := strBytes "svc:stdio.in"

def HSX_MBX_STDIO_OUT : List Nat := strBytes "svc:stdio.out"

def HSX_MBX_STDIO_ERR : List Nat := strBytes "svc:stdio.err"

/-- Translation of `hsx_mbx_msg_header_t` (src/include/hsx_mailbox.h lines
107-112): payload length, flag bits, sender PID, logical channel, each a
uint16 on the wire. -/
structure MsgHeader where
  len : Nat
  flags : Nat
  src_pid : Nat
  channel : Nat
deriving Repr, DecidableEq

/-- A framed message: header plus payload bytes. -/
structure Message where
  header : MsgHeader
  payload : List Nat
deriving Repr, DecidableEq

/-- Framed size of a payload: the 8-byte header plus the payload bytes. -/
def framedSize (payload : List Nat) : Nat :=
  HSX_MBX_MSG_HEADER_BYTES + payload.length

/-- The message a SEND builds from its arguments: the header length field
is the payload byte count. -/
def framedOf (srcPid channel flags : Nat) (payload : List Nat) : Message :=
  { header := { len := payload.length, flags := flags, src_pid := srcPid,
                channel := channel },
    payload := payload }

/-- Modelled from the spec: the Ring Buffer Store of one mailbox (spec
section 4.2; the C implementation is not in the source tree).  A
fixed-capacity byte ring holding a FIFO sequence of framed messages.
`pendingOverrun` records that a fan-out drop lost a message for this ring,
so that the next delivery is marked with the overrun flag. -/
structure Ring where
  capacity : Nat
  queue : List Message
  pendingOverrun : Bool
deriving Repr, DecidableEq

/-- Bytes currently occupied in the ring: each queued message occupies its
framed size. -/
def Ring.used (r : Ring) : Nat :=
  (r.queue.map (fun m => framedSize m.payload)).sum

/-- Modelled from the spec: `enqueue(mailbox, header, payload) -> Status`
(spec section 4.2; implementation missing from the source tree).  A framed
message larger than the total capacity fails with message-too-large and is
never partially stored; a framed message that does not fit the free space
yields the would-block condition; otherwise the message is appended whole,
its header length field set to the payload byte count. -/
def Ring.enqueue (r : Ring) (srcPid channel flags : Nat) (payload : List Nat) :
    Nat × Ring :=
  if r.capacity < framedSize payload then
    (HSX_MBX_STATUS_MSG_TOO_LARGE, r)
  else if r.capacity < r.used + framedSize payload then
    (HSX_MBX_STATUS_WOULDBLOCK, r)
  else
    (HSX_MBX_STATUS_OK,
      { r with queue := r.queue ++
          [{ header := { len := payload.length, flags := flags,
                         src_pid := srcPid, channel := channel },
             payload := payload }] })

/-- Header snapshot and payload bytes handed to a receiver. -/
structure Delivery where
  data : List Nat
  flags : Nat
  channel : Nat
  src_pid : Nat
deriving Repr, DecidableEq

/-- Modelled from the spec: `dequeue(mailbox, max_len)` (spec section 4.2;
implementation missing from the source tree).  Removes the head message
whole; delivered bytes are truncated to `maxLen`, and truncation (or a
pending fan-out drop) sets the overrun flag in the header snapshot returned
to the caller.  Truncated tail bytes are discarded, never buffered. -/
def Ring.dequeue (r : Ring) (maxLen : Nat) : Option (Message × Delivery × Ring) :=
  match r.queue with
  | [] => none
  | msg :: rest =>
      let overrun : Bool := decide (maxLen < msg.payload.length) || r.pendingOverrun
      some (msg,
        { data := msg.payload.take maxLen,
          flags := if overrun then msg.header.flags ||| HSX_MBX_FLAG_OVERRUN
                   else msg.header.flags,
          channel := msg.header.channel,
          src_pid := msg.header.src_pid },
        { r with queue := rest, pendingOverrun := false })

/-- Little-endian bytes of one uint16 wire field. -/
def encode16 (v : Nat) : List Nat := [v % 256, v / 256 % 256]

/-- Value of one uint16 wire field from its two bytes. -/
def decode16 (lo hi : Nat) : Nat := lo + 256 * hi

/-- Wire form of `hsx_mbx_msg_header_t`: the four 2-byte fields in
declaration order, payload length first. -/
def encodeHeader (h : MsgHeader) : List Nat :=
  encode16 h.len ++ encode16 h.flags ++ encode16 h.src_pid ++ encode16 h.channel

/-- A message as placed on the wire: its 8-byte header followed by its
payload bytes. -/
def frame (m : Message) : List Nat := encodeHeader m.header ++ m.payload

/-- Modelled from the spec: the collection of per-mailbox rings held by the
Namespace Registry (spec sections 2 and 3; implementation missing from the
source tree), keyed by mailbox name (a byte string). -/
structure Store where
  rings : List Nat → Ring

/-- One data operation of a trace: a SEND of a payload to a named mailbox,
or a RECV with a receive-buffer bound. -/
inductive Op
  | send (mbx : List Nat) (srcPid channel flags : Nat) (payload : List Nat)
  | recv (mbx : List Nat) (maxLen : Nat)

/-- Observable events of a trace: a successful SEND admitting a payload, or
a delivery removing a queued message (recording the original payload and the
possibly truncated bytes handed to the receiver). -/
inductive Event
  | sent (mbx : List Nat) (payload : List Nat)
  | delivered (mbx : List Nat) (original : List Nat) (data : List Nat)

/-- Modelled from the spec: one data operation against the Ring Buffer
Store, performed atomically relative to the mailbox (spec sections 4.2 and
5; implementation missing from the source tree).  A failed SEND or an empty
RECV leaves the store unchanged and produces no event. -/
def stepOp (s : Store) (op : Op) : Store × List Event :=
  match op with
  | .send m sp ch fl p =>
      let res := (s.rings m).enqueue sp ch fl p
      if res.1 = HSX_MBX_STATUS_OK then
        ({ rings := fun n => if n = m then res.2 else s.rings n }, [.sent m p])
      else (s, [])
  | .recv m maxLen =>
      match (s.rings m).dequeue maxLen with
      | none => (s, [])
      | some (msg, d, r2) =>
          ({ rings := fun n => if n = m then r2 else s.rings n },
            [.delivered m msg.payload d.data])

/-- Run a trace of operations, accumulating the events in order. -/
def runOps (s : Store) : List Op → Store × List Event
  | [] => (s, [])
  | op :: rest =>
      let r1 := stepOp s op
      let r2 := runOps r1.1 rest
      (r2.1, r1.2 ++ r2.2)

/-- Payloads successfully sent to mailbox `m`, in trace order. -/
def sentTo (evs : List Event) (m : List Nat) : List (List Nat) :=
  evs.filterMap fun e =>
    match e with
    | .sent m2 p => if m2 = m then some p else none
    | _ => none

/-- Original payloads of the messages delivered (removed) from mailbox `m`,
in trace order. -/
def deliveredFrom (evs : List Event) (m : List Nat) : List (List Nat) :=
  evs.filterMap fun e =>
    match e with
    | .delivered m2 orig _ => if m2 = m then some orig else none
    | _ => none

/-- Payloads still queued in mailbox `m`, head first. -/
def queuedPayloads (s : Store) (m : List Nat) : List (List Nat) :=
  ((s.rings m).queue).map (fun msg => msg.payload)

/-- Modelled from the spec: the subscriber rings of a fan-out mailbox (spec
section 4.4; implementation missing from the source tree). -/
structure Fanout where
  subs : List Ring

/-- A subscriber ring has room for the framed payload. -/
def hasRoom (r : Ring) (payload : List Nat) : Bool :=
  decide (r.used + framedSize payload ≤ r.capacity)

/-- Modelled from the spec: FANOUT_DROP delivery (spec section 4.4;
implementation missing from the source tree).  The send proceeds for every
subscriber with room; a subscriber whose ring cannot take the message loses
it and has its next delivery marked with the overrun flag. -/
def fanoutSendDrop (f : Fanout) (sp ch fl : Nat) (payload : List Nat) : Fanout :=
  { subs := f.subs.map fun r =>
      let res := r.enqueue sp ch fl payload
      if res.1 = HSX_MBX_STATUS_OK then res.2
      else { r with pendingOverrun := true } }

/-- Every subscriber ring has room for the framed payload. -/
def fanoutReady (f : Fanout) (payload : List Nat) : Bool :=
  f.subs.all fun r => hasRoom r payload

/-- Modelled from the spec: FANOUT_BLOCK delivery (spec section 4.4;
implementation missing from the source tree).  The send completes only once
every subscriber ring has room (`none` means the sender stays blocked);
when it completes, every subscriber receives the message. -/
def fanoutSendBlock (f : Fanout) (sp ch fl : Nat) (payload : List Nat) :
    Option Fanout :=
  if fanoutReady f payload then
    some { subs := f.subs.map fun r => (r.enqueue sp ch fl payload).2 }
  else none

/-- Classification of the 16-bit timeout argument. -/
inductive TimeoutClass
  | pollClass
  | relativeMs (ms : Nat)
  | infiniteClass
deriving Repr, DecidableEq

/-- Modelled from the spec: decoding of the timeout argument (ABI comment,
src/include/hsx_mailbox.h lines 97-101; handler code missing from the
source tree).  0x0000 polls, 0xFFFF blocks indefinitely, and every other
value is a relative timeout in milliseconds from call entry. -/
def classifyTimeout (t : Nat) : TimeoutClass :=
  if t = HSX_MBX_TIMEOUT_POLL then .pollClass
  else if t = HSX_MBX_TIMEOUT_INFINITE then .infiniteClass
  else .relativeMs t

/-- Immediate outcome of entering a blocking-capable call: return at once
with a status, return at once with success, or suspend the caller with an
optional wake deadline in milliseconds from call entry (`none` means no
upper bound). -/
inductive CallStart
  | ret (status : Nat)
  | retOk
  | suspend (deadline : Option Nat)
deriving Repr, DecidableEq

/-- Modelled from the spec: the blocking policy at RECV entry (spec section
5; implementation missing from the source tree).  Data present succeeds at
once; otherwise POLL returns NO_DATA immediately and never suspends, a
relative timeout suspends with that deadline, and INFINITE suspends with no
deadline. -/
def recvStart (r : Ring) (timeout : Nat) : CallStart :=
  match r.queue with
  | _ :: _ => .retOk
  | [] =>
      match classifyTimeout timeout with
      | .pollClass => .ret HSX_MBX_STATUS_NO_DATA
      | .relativeMs ms => .suspend (some ms)
      | .infiniteClass => .suspend none

/-- Modelled from the spec: the blocking policy at SEND entry (spec section
5; implementation missing from the source tree).  An oversized message
fails at once; a fitting message is admitted at once when the ring has
room; otherwise POLL returns WOULDBLOCK immediately and never suspends, a
relative timeout suspends with that deadline, and INFINITE suspends with no
deadline. -/
def sendStart (r : Ring) (payload : List Nat) (timeout : Nat) : CallStart :=
  if r.capacity < framedSize payload then .ret HSX_MBX_STATUS_MSG_TOO_LARGE
  else if r.used + framedSize payload ≤ r.capacity then .retOk
  else
    match classifyTimeout timeout with
    | .pollClass => .ret HSX_MBX_STATUS_WOULDBLOCK
    | .relativeMs ms => .suspend (some ms)
    | .infiniteClass => .suspend none

/-- A handle table entry: the bound mailbox name and the access mode. -/
structure HandleEntry where
  mbxName : List Nat
  mode : Nat
deriving Repr, DecidableEq

/-- Modelled from the spec: the executive state seen by the trap dispatcher
(spec sections 2-4; implementation missing from the source tree): the
per-caller handle table, the next free handle, the set of bound names, the
per-name rings, the per-name tap-enable flags, and the calling task's PID. -/
structure Exec where
  entries : Nat → Option HandleEntry
  nextHandle : Nat
  bound : List Nat → Bool
  rings : List Nat → Ring
  taps : List Nat → Bool
  curPid : Nat

/-- Look a handle up in the table; `none` is a closed or never-opened
handle. -/
def lookupH (e : Exec) (h : Nat) : Option HandleEntry := e.entries h

/-- Modelled from the spec: name validation by the Namespace Registry (spec
sections 4.1 and 6; implementation missing from the source tree).  A name
is accepted only when it is at most HSX_MBX_MAX_NAME_BYTES bytes long and
starts with one of the four recognized namespace prefixes. -/
def nameValid (name : List Nat) : Bool :=
  decide (name.length ≤ HSX_MBX_MAX_NAME_BYTES) &&
    ( HSX_MBX_PREFIX_PID.isPrefixOf name || HSX_MBX_PREFIX_SVC.isPrefixOf name ||
      HSX_MBX_PREFIX_APP.isPrefixOf name || HSX_MBX_PREFIX_SHARED.isPrefixOf name)

/-- The well-known names that OPEN may bind implicitly: the three stdio
channels (spec section 4.1; names from src/include/hsx_mailbox.h). -/
def wellKnown (name : List Nat) : Bool :=
  name = HSX_MBX_STDIO_IN || name = HSX_MBX_STDIO_OUT || name = HSX_MBX_STDIO_ERR

/-- Allocate the next handle for `target` with access mode `mode`. -/
def allocHandle (e : Exec) (target : List Nat) (mode : Nat) : Nat × Exec :=
  (e.nextHandle,
    { e with
        entries := fun i => if i = e.nextHandle then some ⟨target, mode⟩
                            else e.entries i,
        nextHandle := e.nextHandle + 1 })

/-- Modelled from the spec: MAILBOX_BIND (spec sections 4.1 and 4.5;
implementation missing from the source tree).  A malformed name, a zero
capacity or a capacity over the uint16 registry maximum fails with the
invalid-parameter-class status NO_DESCRIPTOR (spec section 7) and creates
no mailbox; re-binding a bound name succeeds only with the same capacity;
otherwise the mailbox is created with the requested capacity and a handle
is returned.  Results are status, handle, new state. -/
def bindName (e : Exec) (target : List Nat) (capacity mode : Nat) :
    Nat × Nat × Exec :=
  if nameValid target = false then (HSX_MBX_STATUS_NO_DESCRIPTOR, 0, e)
  else if capacity = 0 then (HSX_MBX_STATUS_NO_DESCRIPTOR, 0, e)
  else if 0xFFFF < capacity then (HSX_MBX_STATUS_NO_DESCRIPTOR, 0, e)
  else if e.bound target then
    (if (e.rings target).capacity = capacity then
       let res := allocHandle e target mode
       (HSX_MBX_STATUS_OK, res.1, res.2)
     else (HSX_MBX_STATUS_NO_DESCRIPTOR, 0, e))
  else
    let e2 : Exec :=
      { e with
          bound := fun n => if n = target then true else e.bound n,
          rings := fun n => if n = target then ⟨capacity, [], false⟩
                            else e.rings n }
    let res := allocHandle e2 target mode
    (HSX_MBX_STATUS_OK, res.1, res.2)

/-- Modelled from the spec: MAILBOX_OPEN (spec sections 4.1 and 4.5;
implementation missing from the source tree).  A malformed name fails with
NO_DESCRIPTOR and creates no mailbox; an unbound name fails unless it is a
well-known stdio channel, which is bound implicitly with the default
capacity; a bound name yields a fresh handle.  Results are status, handle,
new state. -/
def openName (e : Exec) (target : List Nat) (mode : Nat) : Nat × Nat × Exec :=
  if nameValid target = false then (HSX_MBX_STATUS_NO_DESCRIPTOR, 0, e)
  else if e.bound target then
    let res := allocHandle e target mode
    (HSX_MBX_STATUS_OK, res.1, res.2)
  else if wellKnown target then
    let e2 : Exec :=
      { e with
          bound := fun n => if n = target then true else e.bound n,
          rings := fun n => if n = target then
                              ⟨HSX_MBX_DEFAULT_RING_CAPACITY, [], false⟩
                            else e.rings n }
    let res := allocHandle e2 target mode
    (HSX_MBX_STATUS_OK, res.1, res.2)
  else (HSX_MBX_STATUS_NO_DESCRIPTOR, 0, e)

/-- Modelled from the spec: MAILBOX_CLOSE (spec sections 4.3 and 4.5;
implementation missing from the source tree).  Closing a valid handle
removes it from the table at once; a stale or already-closed handle fails
with INVALID_HANDLE and changes nothing. -/
def closeH (e : Exec) (h : Nat) : Nat × Exec :=
  match lookupH e h with
  | none => (HSX_MBX_STATUS_INVALID_HANDLE, e)
  | some _ =>
      (HSX_MBX_STATUS_OK,
        { e with entries := fun i => if i = h then none else e.entries i })

/-- Modelled from the spec: MAILBOX_SEND through a handle (spec section
4.5; implementation missing from the source tree).  A stale handle fails
with INVALID_HANDLE without touching any ring; otherwise the payload is
enqueued on the bound mailbox's ring. -/
def sendH (e : Exec) (h : Nat) (channel flags : Nat) (payload : List Nat) :
    Nat × Exec :=
  match lookupH e h with
  | none => (HSX_MBX_STATUS_INVALID_HANDLE, e)
  | some entry =>
      let res := (e.rings entry.mbxName).enqueue e.curPid channel flags payload
      (res.1,
        { e with rings := fun n => if n = entry.mbxName then res.2
                                   else e.rings n })

/-- Modelled from the spec: MAILBOX_RECV through a handle, completed
without waiting (spec section 4.5; implementation missing from the source
tree).  A stale handle fails with INVALID_HANDLE; an empty ring yields
NO_DATA under POLL and TIMEOUT when a deadline elapsed with no data (the
suspension itself is modelled by `recvStart`); otherwise the head message
is delivered.  Results are status, delivery, new state. -/
def recvH (e : Exec) (h : Nat) (maxLen timeout : Nat) :
    Nat × Option Delivery × Exec :=
  match lookupH e h with
  | none => (HSX_MBX_STATUS_INVALID_HANDLE, none, e)
  | some entry =>
      match (e.rings entry.mbxName).dequeue maxLen with
      | none =>
          (if timeout = HSX_MBX_TIMEOUT_POLL then HSX_MBX_STATUS_NO_DATA
           else HSX_MBX_STATUS_TIMEOUT, none, e)
      | some (_, d, r2) =>
          (HSX_MBX_STATUS_OK, some d,
            { e with rings := fun n => if n = entry.mbxName then r2
                                       else e.rings n })

/-- Modelled from the spec: MAILBOX_PEEK (spec section 4.5; implementation
missing from the source tree).  Reports presence and length of the head
message without removing it; a stale handle fails with INVALID_HANDLE.
Results are status, head payload length. -/
def peekH (e : Exec) (h : Nat) : Nat × Nat :=
  match lookupH e h with
  | none => (HSX_MBX_STATUS_INVALID_HANDLE, 0)
  | some entry =>
      match (e.rings entry.mbxName).queue with
      | [] => (HSX_MBX_STATUS_NO_DATA, 0)
      | msg :: _ => (HSX_MBX_STATUS_OK, msg.payload.length)

/-- Modelled from the spec: MAILBOX_TAP (spec sections 4.4 and 4.5;
implementation missing from the source tree).  Toggles the tap-enable flag
of the bound mailbox; a stale handle fails with INVALID_HANDLE. -/
def tapH (e : Exec) (h : Nat) (enable : Bool) : Nat × Exec :=
  match lookupH e h with
  | none => (HSX_MBX_STATUS_INVALID_HANDLE, e)
  | some entry =>
      (HSX_MBX_STATUS_OK,
        { e with taps := fun n => if n = entry.mbxName then enable
                                  else e.taps n })

/-- Translation of `hsx_mailbox_recv_info` (src/examples/lib/hsx_mailbox.h
lines 10-16): raw status, bytes copied, sender flags, channel, sender
PID. -/
structure RecvInfo where
  status : Int
  length : Int
  flags : Nat
  channel : Nat
  src_pid : Nat
deriving Repr, DecidableEq

/-- Modelled from the spec: the MAILBOX_RECV info write-back (ABI comment,
src/include/hsx_mailbox.h lines 103-104; handler code missing from the
source tree).  `infoPtrNull` models passing a NULL info pointer, which is
allowed; `mem` models the current contents of the caller's info buffer,
overwritten exactly when the call succeeds and the pointer is non-NULL.
Results are status, delivered bytes, buffer contents after the call, new
state. -/
def recvWithInfo (e : Exec) (h : Nat) (maxLen timeout : Nat)
    (infoPtrNull : Bool) (mem : RecvInfo) :
    Nat × List Nat × RecvInfo × Exec :=
  let res := recvH e h maxLen timeout
  match res.2.1 with
  | some d =>
      (res.1, d.data,
        if infoPtrNull then mem
        else { status := (res.1 : Int), length := (d.data.length : Int),
               flags := d.flags, channel := d.channel, src_pid := d.src_pid },
        res.2.2)
  | none => (res.1, [], mem, res.2.2)

/-- Modelled from the spec: the return convention of the user-space
wrappers (declared in src/examples/lib/hsx_mailbox.h; wrapper bodies
missing from the source tree).  On success the nonnegative result (handle
or byte count) is returned; on failure the nonzero SVC status is returned
negated. -/
def wrapResult (status value : Nat) : Int :=
  if status = HSX_MBX_STATUS_OK then (value : Int) else -(status : Int)

/-- Modelled from the spec: `hsx_mailbox_open` wrapper over MAILBOX_OPEN
(declared in src/examples/lib/hsx_mailbox.h; body missing from the source
tree). -/
def hsx_mailbox_open (e : Exec) (target : List Nat) (flags : Nat) :
    Int × Exec :=
  let res := openName e target flags
  (wrapResult res.1 res.2.1, res.2.2)

/-- Modelled from the spec: `hsx_mailbox_close` wrapper over MAILBOX_CLOSE
(declared in src/examples/lib/hsx_mailbox.h; body missing from the source
tree). -/
def hsx_mailbox_close (e : Exec) (h : Nat) : Int × Exec :=
  let res := closeH e h
  (wrapResult res.1 0, res.2)

/-- Modelled from the spec: `hsx_mailbox_send` wrapper over MAILBOX_SEND
(declared in src/examples/lib/hsx_mailbox.h; body missing from the source
tree).  On success the accepted byte count is returned. -/
def hsx_mailbox_send (e : Exec) (h : Nat) (payload : List Nat)
    (flags channel : Nat) : Int × Exec :=
  let res := sendH e h channel flags payload
  (wrapResult res.1 payload.length, res.2)

/-- Modelled from the spec: `hsx_mailbox_recv` wrapper over MAILBOX_RECV
(declared in src/examples/lib/hsx_mailbox.h; body missing from the source
tree).  On success the delivered byte count is returned. -/
def hsx_mailbox_recv (e : Exec) (h : Nat) (maxLen timeout : Nat)
    (infoPtrNull : Bool) (mem : RecvInfo) :
    Int × List Nat × RecvInfo × Exec :=
  let res := recvWithInfo e h maxLen timeout infoPtrNull mem
  (wrapResult res.1 res.2.1.length, res.2.1, res.2.2.1, res.2.2.2)

/-- Modelled from the spec: `hsx_mailbox_send_basic` convenience wrapper
(declared in src/examples/lib/hsx_mailbox.h; body missing from the source
tree): a send with default flags and channel. -/
def hsx_mailbox_send_basic (e : Exec) (h : Nat) (payload : List Nat) :
    Int × Exec :=
  hsx_mailbox_send e h payload 0 0

/-- Modelled from the spec: `hsx_mailbox_recv_basic` convenience wrapper
(declared in src/examples/lib/hsx_mailbox.h; body missing from the source
tree): a blocking receive with no info block. -/
def hsx_mailbox_recv_basic (e : Exec) (h : Nat) (maxLen : Nat)
    (mem : RecvInfo) : Int × List Nat × RecvInfo × Exec :=
  hsx_mailbox_recv e h maxLen HSX_MBX_TIMEOUT_INFINITE true mem

/-- Concrete fixture: a queued 10-byte message. -/
def msgTen : Message :=
  { header := { len := 10, flags := 0, src_pid := 7, channel := 2 },
    payload := [0, 1, 2, 3, 4, 5, 6, 7, 8, 9] }

/-- Concrete fixture: a 24-byte ring holding `msgTen` (18 framed bytes
used), which is full for any further 5-byte payload. -/
def ringBusy : Ring := { capacity := 24, queue := [msgTen], pendingOverrun := false }

/-- Concrete fixture: an empty 24-byte ring. -/
def ringIdle : Ring := { capacity := 24, queue := [], pendingOverrun := false }

/-- Concrete fixture: a store in which every mailbox ring starts empty with
the default capacity. -/
def storeDemo : Store :=
  { rings := fun _ => { capacity := HSX_MBX_DEFAULT_RING_CAPACITY, queue := [],
                        pendingOverrun := false } }

/-- Concrete fixture: a trace interleaving sends and receives on the
mailboxes named "app:a" and "app:b". -/
def opsDemo : List Op :=
  [ .send (strBytes "app:a") 1 0 0 [10, 11],
    .send (strBytes "app:b") 2 0 0 [77],
    .send (strBytes "app:a") 1 0 0 [12],
    .recv (strBytes "app:a") 64,
    .recv (strBytes "app:b") 64,
    .send (strBytes "app:a") 1 0 0 [13, 14, 15],
    .recv (strBytes "app:a") 1 ]

/-- Concrete fixture: an executive state with one open handle 0 bound to
"app:demo", every ring empty with the default capacity. -/
def execDemo : Exec :=
  { entries := fun i => if i = 0 then some ⟨strBytes "app:demo", 3⟩ else none,
    nextHandle := 1,
    bound := fun n => n == strBytes "app:demo",
    rings := fun _ => { capacity := HSX_MBX_DEFAULT_RING_CAPACITY, queue := [],
                        pendingOverrun := false },
    taps := fun _ => false,
    curPid := 5 }

/-- Concrete fixture: like `execDemo`, but the handle's mailbox holds one
queued message. -/
def execBusy : Exec :=
  { entries := fun i => if i = 0 then some ⟨strBytes "app:demo", 3⟩ else none,
    nextHandle := 1,
    bound := fun n => n == strBytes "app:demo",
    rings := fun _ => ringBusy,
    taps := fun _ => false,
    curPid := 5 }

/-- Concrete fixture: an info block full of sentinel values. -/
def infoDemo : RecvInfo :=
  { status := 91, length := 92, flags := 93, channel := 94, src_pid := 95 }

/-- Claim C2: a SEND whose framed size (8-byte header plus payload) exceeds
the target mailbox's total ring capacity returns HSX_MBX_STATUS_MSG_TOO_LARGE
and leaves the ring's contents unchanged: no byte of the message is
enqueued, so no partially stored message is ever visible to a receiver. -/
theorem send_msg_too_large (r : Ring) (sp ch fl : Nat) (p : List Nat)
    (h : r.capacity < framedSize p) :
    r.enqueue sp ch fl p = (HSX_MBX_STATUS_MSG_TOO_LARGE, r) := by
  simp [Ring.enqueue, h]

/-- Witness for claim C2: a 17-byte payload (25 framed bytes) on the empty
24-byte ring fails with MSG_TOO_LARGE and leaves the ring untouched. -/
theorem send_msg_too_large_witness :
    ringIdle.capacity <
        framedSize [0, 1, 2, 3, 4, 5, 6, 7, 8, 9, 10, 11, 12, 13, 14, 15, 16] ∧
      Ring.enqueue ringIdle 1 2 0
          [0, 1, 2, 3, 4, 5, 6, 7, 8, 9, 10, 11, 12, 13, 14, 15, 16] =
        (HSX_MBX_STATUS_MSG_TOO_LARGE, ringIdle) :=
  ⟨by decide, send_msg_too_large ringIdle 1 2 0
    [0, 1, 2, 3, 4, 5, 6, 7, 8, 9, 10, 11, 12, 13, 14, 15, 16] (by decide)⟩

/-- Claim C3: a RECV whose max_len is smaller than the queued head
message's length delivers exactly max_len payload bytes, sets the
HSX_MBX_FLAG_OVERRUN bit in the header snapshot returned to the caller, and
removes the message whole, so a later RECV only ever sees the remaining
messages and never re-delivers any part of the truncated one. -/
theorem recv_truncates (r : Ring) (msg : Message) (rest : List Message)
    (maxLen : Nat) (hq : r.queue = msg :: rest)
    (hlt : maxLen < msg.payload.length) :
    r.dequeue maxLen =
      some (msg,
        { data := msg.payload.take maxLen,
          flags := msg.header.flags ||| HSX_MBX_FLAG_OVERRUN,
          channel := msg.header.channel,
          src_pid := msg.header.src_pid },
        { r with queue := rest, pendingOverrun := false }) ∧
    (msg.payload.take maxLen).length = maxLen ∧
    (msg.header.flags ||| HSX_MBX_FLAG_OVERRUN).testBit 3 = true ∧
    (∀ k msg2 d2 r3,
      Ring.dequeue { r with queue := rest, pendingOverrun := false } k =
        some (msg2, d2, r3) → msg2 ∈ rest) := by
  refine ⟨?_, ?_, ?_, ?_⟩
  · simp [Ring.dequeue, hq, hlt]
  · simp [List.length_take]
    omega
  · have hbit : Nat.testBit HSX_MBX_FLAG_OVERRUN 3 = true := by decide
    simp [Nat.testBit_lor, hbit]
  · intro k msg2 d2 r3 hd
    cases hrest : rest with
    | nil => simp [Ring.dequeue, hrest] at hd
    | cons m2 rest2 =>
        simp [Ring.dequeue, hrest] at hd
        simp [hrest, hd.1]

/-- Witness for claim C3: receiving with max_len 4 from the ring holding
the 10-byte message delivers 4 bytes, sets the overrun bit, and drops the
message. -/
theorem recv_truncates_witness :
    ringBusy.queue = msgTen :: [] ∧ 4 < msgTen.payload.length ∧
    (ringBusy.dequeue 4 =
      some (msgTen,
        { data := msgTen.payload.take 4,
          flags := msgTen.header.flags ||| HSX_MBX_FLAG_OVERRUN,
          channel := msgTen.header.channel,
          src_pid := msgTen.header.src_pid },
        { ringBusy with queue := [], pendingOverrun := false }) ∧
    (msgTen.payload.take 4).length = 4 ∧
    (msgTen.header.flags ||| HSX_MBX_FLAG_OVERRUN).testBit 3 = true ∧
    (∀ k msg2 d2 r3,
      Ring.dequeue { ringBusy with queue := [], pendingOverrun := false } k =
        some (msg2, d2, r3) → msg2 ∈ ([] : List Message))) :=
  ⟨by decide, by decide, recv_truncates ringBusy msgTen [] 4 (by decide) (by decide)⟩

/-- Claim C5: a RECV or SEND with timeout POLL (0x0000) never suspends the
caller: an empty-mailbox RECV returns NO_DATA at once and a full-mailbox
SEND returns WOULDBLOCK at once; a timeout in 1..0xFFFE is a relative
deadline in milliseconds from call entry; INFINITE (0xFFFF) suspends with
no deadline at all. -/
theorem timeout_semantics (re rf : Ring) (p : List Nat) (t : Nat)
    (hempty : re.queue = [])
    (hfit : framedSize p ≤ rf.capacity)
    (hfull : rf.capacity < rf.used + framedSize p)
    (ht1 : 1 ≤ t) (ht2 : t ≤ 0xFFFE) :
    recvStart re HSX_MBX_TIMEOUT_POLL = CallStart.ret HSX_MBX_STATUS_NO_DATA ∧
    sendStart rf p HSX_MBX_TIMEOUT_POLL =
      CallStart.ret HSX_MBX_STATUS_WOULDBLOCK ∧
    classifyTimeout t = TimeoutClass.relativeMs t ∧
    recvStart re t = CallStart.suspend (some t) ∧
    sendStart rf p t = CallStart.suspend (some t) ∧
    recvStart re HSX_MBX_TIMEOUT_INFINITE = CallStart.suspend none ∧
    sendStart rf p HSX_MBX_TIMEOUT_INFINITE = CallStart.suspend none := by
  have hfit2 : ¬ rf.capacity < framedSize p := by omega
  have hfull2 : ¬ rf.used + framedSize p ≤ rf.capacity := by omega
  have h0 : ¬ t = HSX_MBX_TIMEOUT_POLL := by
    unfold HSX_MBX_TIMEOUT_POLL; omega
  have hF : ¬ t = HSX_MBX_TIMEOUT_INFINITE := by
    unfold HSX_MBX_TIMEOUT_INFINITE; omega
  have hcls : classifyTimeout t = TimeoutClass.relativeMs t := by
    unfold classifyTimeout
    rw [if_neg h0, if_neg hF]
  refine ⟨?_, ?_, hcls, ?_, ?_, ?_, ?_⟩
  · simp [recvStart, hempty, classifyTimeout, HSX_MBX_TIMEOUT_POLL]
  · simp [sendStart, hfit2, hfull2, classifyTimeout, HSX_MBX_TIMEOUT_POLL]
  · simp [recvStart, hempty, hcls]
  · simp [sendStart, hfit2, hfull2, hcls]
  · simp [recvStart, hempty, classifyTimeout, HSX_MBX_TIMEOUT_POLL,
      HSX_MBX_TIMEOUT_INFINITE]
  · simp [sendStart, hfit2, hfull2, classifyTimeout, HSX_MBX_TIMEOUT_POLL,
      HSX_MBX_TIMEOUT_INFINITE]

/-- Witness for claim C5: the empty ring, the busy ring with a 5-byte
payload, and the relative timeout 250 ms. -/
theorem timeout_semantics_witness :
    ringIdle.queue = [] ∧ framedSize [1, 2, 3, 4, 5] ≤ ringBusy.capacity ∧
    ringBusy.capacity < ringBusy.used + framedSize [1, 2, 3, 4, 5] ∧
    (recvStart ringIdle HSX_MBX_TIMEOUT_POLL =
        CallStart.ret HSX_MBX_STATUS_NO_DATA ∧
      sendStart ringBusy [1, 2, 3, 4, 5] HSX_MBX_TIMEOUT_POLL =
        CallStart.ret HSX_MBX_STATUS_WOULDBLOCK ∧
      classifyTimeout 250 = TimeoutClass.relativeMs 250 ∧
      recvStart ringIdle 250 = CallStart.suspend (some 250) ∧
      sendStart ringBusy [1, 2, 3, 4, 5] 250 = CallStart.suspend (some 250) ∧
      recvStart ringIdle HSX_MBX_TIMEOUT_INFINITE = CallStart.suspend none ∧
      sendStart ringBusy [1, 2, 3, 4, 5] HSX_MBX_TIMEOUT_INFINITE =
        CallStart.suspend none) :=
  ⟨by decide, by decide, by decide,
    timeout_semantics ringIdle ringBusy [1, 2, 3, 4, 5] 250 (by decide)
      (by decide) (by decide) (by decide) (by decide)⟩

/-- Claim C8: every message a successful SEND places on the wire is the
message built from its arguments, framed as an 8-byte header of four 2-byte
fields in order (payload length, flags, sender id, channel) followed by
exactly the payload bytes, and the length field always equals the number of
payload bytes that follow. -/
theorem send_wire_framing (r : Ring) (sp ch fl : Nat) (p : List Nat)
    (r2 : Ring) (hcap : r.capacity ≤ 0xFFFF)
    (hok : r.enqueue sp ch fl p = (HSX_MBX_STATUS_OK, r2)) :
    r2.queue = r.queue ++ [framedOf sp ch fl p] ∧
    (framedOf sp ch fl p).header.len = (framedOf sp ch fl p).payload.length ∧
    frame (framedOf sp ch fl p) =
      encode16 p.length ++ encode16 fl ++ encode16 sp ++ encode16 ch ++ p ∧
    (encodeHeader (framedOf sp ch fl p).header).length = 8 ∧
    (frame (framedOf sp ch fl p)).take 8 =
      encodeHeader (framedOf sp ch fl p).header ∧
    (frame (framedOf sp ch fl p)).drop 8 = p ∧
    decode16 (p.length % 256) (p.length / 256 % 256) = p.length := by
  have hlen8 : (encodeHeader (framedOf sp ch fl p).header).length = 8 := by
    simp [encodeHeader, encode16]
  have hsize : framedSize p ≤ r.capacity := by
    by_contra hc
    rw [Ring.enqueue, if_pos (by omega)] at hok
    have := congrArg Prod.fst hok
    simp [HSX_MBX_STATUS_MSG_TOO_LARGE, HSX_MBX_STATUS_OK] at this
  have hplen : p.length < 65536 := by
    have : HSX_MBX_MSG_HEADER_BYTES + p.length ≤ 0xFFFF := by
      calc HSX_MBX_MSG_HEADER_BYTES + p.length = framedSize p := rfl
        _ ≤ r.capacity := hsize
        _ ≤ 0xFFFF := hcap
    unfold HSX_MBX_MSG_HEADER_BYTES at this
    omega
  refine ⟨?_, rfl, rfl, hlen8, ?_, ?_, ?_⟩
  · rw [Ring.enqueue, if_neg (by omega)] at hok
    split at hok
    · have := congrArg Prod.fst hok
      simp [HSX_MBX_STATUS_WOULDBLOCK, HSX_MBX_STATUS_OK] at this
    · have h2 := congrArg Prod.snd hok
      simp at h2
      rw [← h2]
      simp [framedOf]
  · rw [frame, ← hlen8]
    exact List.take_left _ _
  · rw [frame, ← hlen8]
    exact List.drop_left _ _
  · rw [decode16]
    omega

/-- Witness for claim C8: enqueueing the 3-byte payload on the empty ring
produces the framed message with length field 3. -/
theorem send_wire_framing_witness :
    ringIdle.capacity ≤ 0xFFFF ∧
    Ring.enqueue ringIdle 7 2 0 [1, 2, 3] =
      (HSX_MBX_STATUS_OK,
        { capacity := 24, queue := [framedOf 7 2 0 [1, 2, 3]],
          pendingOverrun := false }) ∧
    ({ capacity := 24, queue := [framedOf 7 2 0 [1, 2, 3]],
       pendingOverrun := false} : Ring).queue =
        ringIdle.queue ++ [framedOf 7 2 0 [1, 2, 3]] ∧
    (framedOf 7 2 0 [1, 2, 3]).header.len =
      (framedOf 7 2 0 [1, 2, 3]).payload.length ∧
    frame (framedOf 7 2 0 [1, 2, 3]) =
      encode16 ([1, 2, 3] : List Nat).length ++ encode16 0 ++ encode16 7 ++
        encode16 2 ++ [1, 2, 3] ∧
    (encodeHeader (framedOf 7 2 0 [1, 2, 3]).header).length = 8 ∧
    (frame (framedOf 7 2 0 [1, 2, 3])).take 8 =
      encodeHeader (framedOf 7 2 0 [1, 2, 3]).header ∧
    (frame (framedOf 7 2 0 [1, 2, 3])).drop 8 = [1, 2, 3] ∧
    decode16 (([1, 2, 3] : List Nat).length % 256)
      (([1, 2, 3] : List Nat).length / 256 % 256) = ([1, 2, 3] : List Nat).length :=
  ⟨by decide, by decide,
    send_wire_framing ringIdle 7 2 0 [1, 2, 3] _ (by decide) (by decide)⟩

/-- Claim C6: CLOSE transitions a handle to the terminal CLOSED state at
once: after one successful CLOSE, a second CLOSE of the same handle, and
any SEND, RECV, PEEK or TAP through it, returns
HSX_MBX_STATUS_INVALID_HANDLE and leaves the state untouched, never
succeeding silently. -/
theorem close_terminal (e : Exec) (h ch fl : Nat) (p : List Nat)
    (maxLen timeout : Nat) (en : Bool)
    (hok : (closeH e h).1 = HSX_MBX_STATUS_OK) :
    closeH (closeH e h).2 h = (HSX_MBX_STATUS_INVALID_HANDLE, (closeH e h).2) ∧
    sendH (closeH e h).2 h ch fl p =
      (HSX_MBX_STATUS_INVALID_HANDLE, (closeH e h).2) ∧
    recvH (closeH e h).2 h maxLen timeout =
      (HSX_MBX_STATUS_INVALID_HANDLE, none, (closeH e h).2) ∧
    peekH (closeH e h).2 h = (HSX_MBX_STATUS_INVALID_HANDLE, 0) ∧
    tapH (closeH e h).2 h en = (HSX_MBX_STATUS_INVALID_HANDLE, (closeH e h).2) := by
  cases hl : lookupH e h with
  | none =>
      rw [closeH, hl] at hok
      simp [HSX_MBX_STATUS_INVALID_HANDLE, HSX_MBX_STATUS_OK] at hok
  | some entry =>
      have hl2 : e.entries h = some entry := hl
      have h2 : lookupH (closeH e h).2 h = none := by
        simp [closeH, lookupH, hl2]
      exact ⟨by rw [closeH, h2], by rw [sendH, h2], by rw [recvH, h2],
        by rw [peekH, h2], by rw [tapH, h2]⟩

/-- Witness for claim C6: closing handle 0 of the demo executive succeeds,
and every further operation through handle 0 fails with INVALID_HANDLE. -/
theorem close_terminal_witness :
    (closeH execDemo 0).1 = HSX_MBX_STATUS_OK ∧
    (closeH (closeH execDemo 0).2 0 =
        (HSX_MBX_STATUS_INVALID_HANDLE, (closeH execDemo 0).2) ∧
      sendH (closeH execDemo 0).2 0 3 0 [9] =
        (HSX_MBX_STATUS_INVALID_HANDLE, (closeH execDemo 0).2) ∧
      recvH (closeH execDemo 0).2 0 16 HSX_MBX_TIMEOUT_POLL =
        (HSX_MBX_STATUS_INVALID_HANDLE, none, (closeH execDemo 0).2) ∧
      peekH (closeH execDemo 0).2 0 = (HSX_MBX_STATUS_INVALID_HANDLE, 0) ∧
      tapH (closeH execDemo 0).2 0 true =
        (HSX_MBX_STATUS_INVALID_HANDLE, (closeH execDemo 0).2)) :=
  ⟨rfl, close_terminal execDemo 0 3 0 [9] 16 HSX_MBX_TIMEOUT_POLL true rfl⟩

/-- Claim C7: OPEN and BIND accept a target name only when it starts with
one of the four recognized namespace prefixes (pid:, svc:, app:, shared:)
and is at most 32 bytes long; a name with any other prefix, or longer than
32 bytes, fails with the invalid-parameter-class status NO_DESCRIPTOR and
creates no mailbox (the state is returned unchanged). -/
theorem name_rules (e : Exec) (target : List Nat) (capacity mode : Nat)
    (hbad : 32 < target.length ∨
      (HSX_MBX_PREFIX_PID.isPrefixOf target = false ∧
       HSX_MBX_PREFIX_SVC.isPrefixOf target = false ∧
       HSX_MBX_PREFIX_APP.isPrefixOf target = false ∧
       HSX_MBX_PREFIX_SHARED.isPrefixOf target = false)) :
    bindName e target capacity mode = (HSX_MBX_STATUS_NO_DESCRIPTOR, 0, e) ∧
    openName e target mode = (HSX_MBX_STATUS_NO_DESCRIPTOR, 0, e) ∧
    (∀ (e2 : Exec) (t2 : List Nat) (c2 m2 : Nat),
      (bindName e2 t2 c2 m2).1 = HSX_MBX_STATUS_OK →
        t2.length ≤ HSX_MBX_MAX_NAME_BYTES ∧
        (HSX_MBX_PREFIX_PID.isPrefixOf t2 = true ∨
         HSX_MBX_PREFIX_SVC.isPrefixOf t2 = true ∨
         HSX_MBX_PREFIX_APP.isPrefixOf t2 = true ∨
         HSX_MBX_PREFIX_SHARED.isPrefixOf t2 = true)) ∧
    (∀ (e2 : Exec) (t2 : List Nat) (m2 : Nat),
      (openName e2 t2 m2).1 = HSX_MBX_STATUS_OK →
        t2.length ≤ HSX_MBX_MAX_NAME_BYTES ∧
        (HSX_MBX_PREFIX_PID.isPrefixOf t2 = true ∨
         HSX_MBX_PREFIX_SVC.isPrefixOf t2 = true ∨
         HSX_MBX_PREFIX_APP.isPrefixOf t2 = true ∨
         HSX_MBX_PREFIX_SHARED.isPrefixOf t2 = true)) := by
  have hval : ∀ t2 : List Nat, nameValid t2 = true →
      t2.length ≤ HSX_MBX_MAX_NAME_BYTES ∧
      (HSX_MBX_PREFIX_PID.isPrefixOf t2 = true ∨
       HSX_MBX_PREFIX_SVC.isPrefixOf t2 = true ∨
       HSX_MBX_PREFIX_APP.isPrefixOf t2 = true ∨
       HSX_MBX_PREFIX_SHARED.isPrefixOf t2 = true) := by
    intro t2 hv
    rw [nameValid, Bool.and_eq_true, decide_eq_true_iff] at hv
    refine ⟨hv.1, ?_⟩
    have h2 := hv.2
    rw [Bool.or_eq_true, Bool.or_eq_true, Bool.or_eq_true] at h2
    tauto
  have hnv : nameValid target = false := by
    rw [nameValid]
    rcases hbad with h | ⟨h1, h2, h3, h4⟩
    · have : decide (target.length ≤ HSX_MBX_MAX_NAME_BYTES) = false := by
        rw [decide_eq_false_iff_not]
        unfold HSX_MBX_MAX_NAME_BYTES
        omega
      rw [this, Bool.false_and]
    · rw [h1, h2, h3, h4]
      simp
  refine ⟨?_, ?_, ?_, ?_⟩
  · rw [bindName, if_pos hnv]
  · rw [openName, if_pos hnv]
  · intro e2 t2 c2 m2 hok
    refine hval t2 ?_
    by_contra hv
    rw [Bool.not_eq_true] at hv
    rw [bindName, if_pos hv] at hok
    simp [HSX_MBX_STATUS_NO_DESCRIPTOR, HSX_MBX_STATUS_OK] at hok
  · intro e2 t2 m2 hok
    refine hval t2 ?_
    by_contra hv
    rw [Bool.not_eq_true] at hv
    rw [openName, if_pos hv] at hok
    simp [HSX_MBX_STATUS_NO_DESCRIPTOR, HSX_MBX_STATUS_OK] at hok

/-- Witness for claim C7: the name "hal:evt" (bytes of another prefix
family) is rejected by both BIND and OPEN with NO_DESCRIPTOR and no state
change. -/
theorem name_rules_witness :
    (32 < (strBytes "hal:evt").length ∨
      (HSX_MBX_PREFIX_PID.isPrefixOf (strBytes "hal:evt") = false ∧
       HSX_MBX_PREFIX_SVC.isPrefixOf (strBytes "hal:evt") = false ∧
       HSX_MBX_PREFIX_APP.isPrefixOf (strBytes "hal:evt") = false ∧
       HSX_MBX_PREFIX_SHARED.isPrefixOf (strBytes "hal:evt") = false)) ∧
    (bindName execDemo (strBytes "hal:evt") 64 3 =
        (HSX_MBX_STATUS_NO_DESCRIPTOR, 0, execDemo) ∧
      openName execDemo (strBytes "hal:evt") 3 =
        (HSX_MBX_STATUS_NO_DESCRIPTOR, 0, execDemo) ∧
      (∀ (e2 : Exec) (t2 : List Nat) (c2 m2 : Nat),
        (bindName e2 t2 c2 m2).1 = HSX_MBX_STATUS_OK →
          t2.length ≤ HSX_MBX_MAX_NAME_BYTES ∧
          (HSX_MBX_PREFIX_PID.isPrefixOf t2 = true ∨
           HSX_MBX_PREFIX_SVC.isPrefixOf t2 = true ∨
           HSX_MBX_PREFIX_APP.isPrefixOf t2 = true ∨
           HSX_MBX_PREFIX_SHARED.isPrefixOf t2 = true)) ∧
      (∀ (e2 : Exec) (t2 : List Nat) (m2 : Nat),
        (openName e2 t2 m2).1 = HSX_MBX_STATUS_OK →
          t2.length ≤ HSX_MBX_MAX_NAME_BYTES ∧
          (HSX_MBX_PREFIX_PID.isPrefixOf t2 = true ∨
           HSX_MBX_PREFIX_SVC.isPrefixOf t2 = true ∨
           HSX_MBX_PREFIX_APP.isPrefixOf t2 = true ∨
           HSX_MBX_PREFIX_SHARED.isPrefixOf t2 = true))) :=
  ⟨by decide, name_rules execDemo (strBytes "hal:evt") 64 3 (by decide)⟩

/-- Successful sends split over event concatenation. -/
theorem sentTo_append (a b : List Event) (m : List Nat) :
    sentTo (a ++ b) m = sentTo a m ++ sentTo b m := by
  simp [sentTo, List.filterMap_append]

/-- Deliveries split over event concatenation. -/
theorem deliveredFrom_append (a b : List Event) (m : List Nat) :
    deliveredFrom (a ++ b) m = deliveredFrom a m ++ deliveredFrom b m := by
  simp [deliveredFrom, List.filterMap_append]

/-- Complete case analysis of `Ring.enqueue`: too large, would block, or
appended whole. -/
theorem enqueue_spec (r : Ring) (sp ch fl : Nat) (p : List Nat) :
    (r.capacity < framedSize p ∧
      r.enqueue sp ch fl p = (HSX_MBX_STATUS_MSG_TOO_LARGE, r)) ∨
    (¬ r.capacity < framedSize p ∧ r.capacity < r.used + framedSize p ∧
      r.enqueue sp ch fl p = (HSX_MBX_STATUS_WOULDBLOCK, r)) ∨
    (¬ r.capacity < framedSize p ∧ ¬ r.capacity < r.used + framedSize p ∧
      r.enqueue sp ch fl p = (HSX_MBX_STATUS_OK,
        { r with queue := r.queue ++ [framedOf sp ch fl p] })) := by
  by_cases h1 : r.capacity < framedSize p
  · exact Or.inl ⟨h1, by rw [Ring.enqueue, if_pos h1]⟩
  · by_cases h2 : r.capacity < r.used + framedSize p
    · exact Or.inr (Or.inl ⟨h1, h2, by rw [Ring.enqueue, if_neg h1, if_pos h2]⟩)
    · exact Or.inr (Or.inr ⟨h1, h2,
        by rw [Ring.enqueue, if_neg h1, if_neg h2]; rfl⟩)

/-- A successful dequeue removes exactly the head message and hands over a
truncation of its payload. -/
theorem dequeue_some_spec (r : Ring) (k : Nat) (msg : Message) (d : Delivery)
    (r2 : Ring) (hd : r.dequeue k = some (msg, d, r2)) :
    r.queue = msg :: r2.queue ∧ d.data = msg.payload.take k := by
  cases hq : r.queue with
  | nil => rw [Ring.dequeue, hq] at hd; simp at hd
  | cons m0 rest =>
      rw [Ring.dequeue, hq] at hd
      simp only [Option.some.injEq, Prod.mk.injEq] at hd
      obtain ⟨h1, h2, h3⟩ := hd
      have hqq := congrArg Ring.queue h3
      simp only at hqq
      constructor
      · rw [h1, hqq]
      · rw [← h2, ← h1]

/-- One trace step balances the mailbox ledger: deliveries so far plus what
stays queued equals what was queued before plus the admitted sends. -/
theorem stepOp_balance (s : Store) (op : Op) (m : List Nat) :
    deliveredFrom (stepOp s op).2 m ++ queuedPayloads (stepOp s op).1 m
      = queuedPayloads s m ++ sentTo (stepOp s op).2 m := by
  cases op with
  | send m2 sp ch fl p =>
      rcases enqueue_spec (s.rings m2) sp ch fl p with
        ⟨h1, heq⟩ | ⟨h1, h2, heq⟩ | ⟨h1, h2, heq⟩
      · simp only [stepOp, heq]
        rw [if_neg (by simp [HSX_MBX_STATUS_MSG_TOO_LARGE, HSX_MBX_STATUS_OK])]
        simp [deliveredFrom, sentTo]
      · simp only [stepOp, heq]
        rw [if_neg (by simp [HSX_MBX_STATUS_WOULDBLOCK, HSX_MBX_STATUS_OK])]
        simp [deliveredFrom, sentTo]
      · simp only [stepOp, heq]
        rw [if_pos trivial]
        by_cases hm : m2 = m
        · subst hm
          simp [deliveredFrom, sentTo, queuedPayloads, framedOf]
        · simp [deliveredFrom, sentTo, queuedPayloads, hm, Ne.symm hm]
  | recv m2 k =>
      cases hd : (s.rings m2).dequeue k with
      | none =>
          simp only [stepOp, hd]
          simp [deliveredFrom, sentTo]
      | some out =>
          obtain ⟨msg, d, r2⟩ := out
          have hspec := dequeue_some_spec (s.rings m2) k msg d r2 hd
          simp only [stepOp, hd]
          by_cases hm : m2 = m
          · subst hm
            simp [deliveredFrom, sentTo, queuedPayloads]
            rw [hspec.1]
            simp
          · simp [deliveredFrom, sentTo, queuedPayloads, hm, Ne.symm hm]

/-- The ledger balance of `stepOp_balance`, extended over a whole trace by
induction. -/
theorem runOps_balance (ops : List Op) (s : Store) (m : List Nat) :
    deliveredFrom (runOps s ops).2 m ++ queuedPayloads (runOps s ops).1 m
      = queuedPayloads s m ++ sentTo (runOps s ops).2 m := by
  induction ops generalizing s with
  | nil => simp [runOps, deliveredFrom, sentTo]
  | cons op rest ih =>
      simp only [runOps]
      rw [deliveredFrom_append, sentTo_append, List.append_assoc,
        ih (stepOp s op).1, ← List.append_assoc, stepOp_balance s op m,
        List.append_assoc]

/-- Each delivery event of one step hands the receiver a prefix of the
payload of the removed message. -/
theorem stepOp_delivered_take (s : Store) (op : Op) (m2 orig dat : List Nat)
    (hmem : Event.delivered m2 orig dat ∈ (stepOp s op).2) :
    dat <+: orig := by
  cases op with
  | send m3 sp ch fl p =>
      simp only [stepOp] at hmem
      split at hmem
      · simp at hmem
      · simp at hmem
  | recv m3 k =>
      simp only [stepOp] at hmem
      cases hd : (s.rings m3).dequeue k with
      | none => rw [hd] at hmem; simp at hmem
      | some out =>
          obtain ⟨msg, d, r2⟩ := out
          rw [hd] at hmem
          simp at hmem
          rw [hmem.2.2, hmem.2.1,
            (dequeue_some_spec (s.rings m3) k msg d r2 hd).2]
          exact List.take_prefix k msg.payload

/-- Each delivery event of a whole trace hands the receiver a prefix of
the payload of the removed message. -/
theorem runOps_delivered_take (ops : List Op) (s : Store)
    (m2 orig dat : List Nat)
    (hmem : Event.delivered m2 orig dat ∈ (runOps s ops).2) :
    dat <+: orig := by
  induction ops generalizing s with
  | nil => simp [runOps] at hmem
  | cons op rest ih =>
      simp only [runOps, List.mem_append] at hmem
      rcases hmem with h | h
      · exact stepOp_delivered_take s op m2 orig dat h
      · exact ih (stepOp s op).1 h

/-- Claim C1: starting from an empty mailbox, for every trace of SEND and
RECV operations interleaved across arbitrary mailboxes, the sequence of
messages delivered from mailbox `m` is exactly a prefix, in order, of the
sequence of payloads successfully sent to `m` (strict FIFO: message N is
removed only after messages 1..N-1 were delivered or discarded), and every
delivered byte string is a prefix of its message's payload. -/
theorem mailbox_fifo (s : Store) (ops : List Op) (m : List Nat)
    (hinit : (s.rings m).queue = []) :
    deliveredFrom (runOps s ops).2 m <+: sentTo (runOps s ops).2 m ∧
    (∀ orig dat, Event.delivered m orig dat ∈ (runOps s ops).2 →
      dat <+: orig) := by
  constructor
  · have hbal := runOps_balance ops s m
    rw [show queuedPayloads s m = [] from by simp [queuedPayloads, hinit],
      List.nil_append] at hbal
    exact ⟨queuedPayloads (runOps s ops).1 m, hbal⟩
  · intro orig dat hmem
    exact runOps_delivered_take ops s m orig dat hmem

/-- Witness for claim C1: the demo trace interleaving two mailboxes keeps
mailbox "app:a" strictly FIFO. -/
theorem mailbox_fifo_witness :
    (storeDemo.rings (strBytes "app:a")).queue = [] ∧
    (deliveredFrom (runOps storeDemo opsDemo).2 (strBytes "app:a") <+:
        sentTo (runOps storeDemo opsDemo).2 (strBytes "app:a") ∧
      (∀ orig dat,
        Event.delivered (strBytes "app:a") orig dat ∈
          (runOps storeDemo opsDemo).2 → dat <+: orig)) :=
  ⟨rfl, mailbox_fifo storeDemo opsDemo (strBytes "app:a") rfl⟩

/-- Claim C4: for a SEND to a fan-out mailbox with a full subscriber `i`
and a subscriber `j` with room, FANOUT_DROP completes at once, enqueues the
message for every subscriber with room, drops it only for the full
subscriber and marks that subscriber so its next delivered message carries
the overrun flag; FANOUT_BLOCK does not complete while any subscriber ring
lacks room, and once every subscriber has room it completes and delivers
the message to every subscriber, so none misses it. -/
theorem fanout_modes (f : Fanout) (sp ch fl : Nat) (p : List Nat)
    (i j : Nat) (hi : i < f.subs.length) (hj : j < f.subs.length)
    (hfit : framedSize p ≤ f.subs[i].capacity)
    (hfull : f.subs[i].capacity < f.subs[i].used + framedSize p)
    (hroom : f.subs[j].used + framedSize p ≤ f.subs[j].capacity) :
    (fanoutSendDrop f sp ch fl p).subs.length = f.subs.length ∧
    (∀ hj2 : j < (fanoutSendDrop f sp ch fl p).subs.length,
      ((fanoutSendDrop f sp ch fl p).subs[j]).queue
        = f.subs[j].queue ++ [framedOf sp ch fl p]) ∧
    (∀ hi2 : i < (fanoutSendDrop f sp ch fl p).subs.length,
      (fanoutSendDrop f sp ch fl p).subs[i]
        = { f.subs[i] with pendingOverrun := true }) ∧
    (∀ (k : Nat) (msg : Message) (d : Delivery) (r3 : Ring),
      Ring.dequeue { f.subs[i] with pendingOverrun := true } k
          = some (msg, d, r3) → d.flags.testBit 3 = true) ∧
    fanoutSendBlock f sp ch fl p = none ∧
    (∀ f2 : Fanout, fanoutReady f2 p = true →
      ∀ g2 : Fanout, fanoutSendBlock f2 sp ch fl p = some g2 →
        g2.subs.length = f2.subs.length ∧
        ∀ (k : Nat) (hk : k < f2.subs.length) (hk2 : k < g2.subs.length),
          (g2.subs[k]).queue = f2.subs[k].queue ++ [framedOf sp ch fl p]) ∧
    (∀ f2 : Fanout, fanoutReady f2 p = true →
      fanoutSendBlock f2 sp ch fl p
        = some { subs := f2.subs.map fun r => (r.enqueue sp ch fl p).2 }) := by
  have hifit : ¬ f.subs[i].capacity < framedSize p := by omega
  have hienq : f.subs[i].enqueue sp ch fl p
      = (HSX_MBX_STATUS_WOULDBLOCK, f.subs[i]) := by
    rcases enqueue_spec f.subs[i] sp ch fl p with
      ⟨h1, _⟩ | ⟨_, _, heq⟩ | ⟨_, h2, _⟩
    · exact absurd h1 hifit
    · exact heq
    · omega
  have hjenq : f.subs[j].enqueue sp ch fl p
      = (HSX_MBX_STATUS_OK,
        { f.subs[j] with queue := f.subs[j].queue ++ [framedOf sp ch fl p] }) := by
    rcases enqueue_spec f.subs[j] sp ch fl p with
      ⟨h1, _⟩ | ⟨_, h2, _⟩ | ⟨_, _, heq⟩
    · omega
    · omega
    · exact heq
  have hready : fanoutReady f p = false := by
    rw [fanoutReady]
    by_contra hc
    rw [Bool.not_eq_false, List.all_eq_true] at hc
    have hmem : f.subs[i] ∈ f.subs := List.getElem_mem hi
    have := hc f.subs[i] hmem
    rw [hasRoom, decide_eq_true_iff] at this
    omega
  refine ⟨by simp [fanoutSendDrop], ?_, ?_, ?_, ?_, ?_, ?_⟩
  · intro hj2
    have : (fanoutSendDrop f sp ch fl p).subs[j]
        = { f.subs[j] with queue := f.subs[j].queue ++ [framedOf sp ch fl p] } := by
      simp only [fanoutSendDrop, List.getElem_map, hjenq]
      rw [if_pos trivial]
    rw [this]
  · intro hi2
    simp only [fanoutSendDrop, List.getElem_map, hienq]
    rw [if_neg (by simp [HSX_MBX_STATUS_WOULDBLOCK, HSX_MBX_STATUS_OK])]
  · intro k msg d r3 hd
    cases hq : ({ f.subs[i] with pendingOverrun := true } : Ring).queue with
    | nil => rw [Ring.dequeue, hq] at hd; simp at hd
    | cons m0 rest =>
        rw [Ring.dequeue, hq] at hd
        simp only [Bool.or_true, if_pos] at hd
        simp only [Option.some.injEq, Prod.mk.injEq] at hd
        have hdf := congrArg Delivery.flags hd.2.1
        simp only at hdf
        rw [← hdf]
        have hbit : Nat.testBit HSX_MBX_FLAG_OVERRUN 3 = true := by decide
        simp [Nat.testBit_lor, hbit]
  · rw [fanoutSendBlock, hready]
    simp
  · intro f2 hr2 g2 hg2
    rw [fanoutSendBlock, hr2] at hg2
    simp only [if_pos, Option.some.injEq] at hg2
    obtain rfl := hg2.symm
    constructor
    · simp
    · intro k hk hk2
      have henq : f2.subs[k].enqueue sp ch fl p
          = (HSX_MBX_STATUS_OK,
            { f2.subs[k] with
                queue := f2.subs[k].queue ++ [framedOf sp ch fl p] }) := by
        have hmem : f2.subs[k] ∈ f2.subs := List.getElem_mem hk
        rw [fanoutReady, List.all_eq_true] at hr2
        have hroomk := hr2 f2.subs[k] hmem
        rw [hasRoom, decide_eq_true_iff] at hroomk
        rcases enqueue_spec f2.subs[k] sp ch fl p with
          ⟨h1, _⟩ | ⟨_, h2, _⟩ | ⟨_, _, heq⟩
        · omega
        · omega
        · exact heq
      simp only [List.getElem_map, henq]
  · intro f2 hr2
    rw [fanoutSendBlock, hr2]
    simp

/-- Witness for claim C4: a fan-out mailbox whose subscriber 0 is full and
subscriber 1 is empty. -/
theorem fanout_modes_witness :
    framedSize [1, 2, 3, 4, 5] ≤ (Fanout.mk [ringBusy, ringIdle]).subs[0].capacity ∧
    (Fanout.mk [ringBusy, ringIdle]).subs[0].capacity <
      (Fanout.mk [ringBusy, ringIdle]).subs[0].used + framedSize [1, 2, 3, 4, 5] ∧
    (Fanout.mk [ringBusy, ringIdle]).subs[1].used + framedSize [1, 2, 3, 4, 5] ≤
      (Fanout.mk [ringBusy, ringIdle]).subs[1].capacity ∧
    ((fanoutSendDrop (Fanout.mk [ringBusy, ringIdle]) 9 1 0 [1, 2, 3, 4, 5]).subs.length
        = (Fanout.mk [ringBusy, ringIdle]).subs.length ∧
      (∀ hj2 : 1 <
          (fanoutSendDrop (Fanout.mk [ringBusy, ringIdle]) 9 1 0 [1, 2, 3, 4, 5]).subs.length,
        ((fanoutSendDrop (Fanout.mk [ringBusy, ringIdle]) 9 1 0 [1, 2, 3, 4, 5]).subs[1]).queue
          = (Fanout.mk [ringBusy, ringIdle]).subs[1].queue ++ [framedOf 9 1 0 [1, 2, 3, 4, 5]]) ∧
      (∀ hi2 : 0 <
          (fanoutSendDrop (Fanout.mk [ringBusy, ringIdle]) 9 1 0 [1, 2, 3, 4, 5]).subs.length,
        (fanoutSendDrop (Fanout.mk [ringBusy, ringIdle]) 9 1 0 [1, 2, 3, 4, 5]).subs[0]
          = { (Fanout.mk [ringBusy, ringIdle]).subs[0] with pendingOverrun := true }) ∧
      (∀ (k : Nat) (msg : Message) (d : Delivery) (r3 : Ring),
        Ring.dequeue { (Fanout.mk [ringBusy, ringIdle]).subs[0] with pendingOverrun := true } k
            = some (msg, d, r3) → d.flags.testBit 3 = true) ∧
      fanoutSendBlock (Fanout.mk [ringBusy, ringIdle]) 9 1 0 [1, 2, 3, 4, 5] = none ∧
      (∀ f2 : Fanout, fanoutReady f2 [1, 2, 3, 4, 5] = true →
        ∀ g2 : Fanout, fanoutSendBlock f2 9 1 0 [1, 2, 3, 4, 5] = some g2 →
          g2.subs.length = f2.subs.length ∧
          ∀ (k : Nat) (hk : k < f2.subs.length) (hk2 : k < g2.subs.length),
            (g2.subs[k]).queue = f2.subs[k].queue ++ [framedOf 9 1 0 [1, 2, 3, 4, 5]]) ∧
      (∀ f2 : Fanout, fanoutReady f2 [1, 2, 3, 4, 5] = true →
        fanoutSendBlock f2 9 1 0 [1, 2, 3, 4, 5]
          = some { subs := f2.subs.map fun r => (r.enqueue 9 1 0 [1, 2, 3, 4, 5]).2 })) :=
  ⟨by decide, by decide, by decide,
    fanout_modes (Fanout.mk [ringBusy, ringIdle]) 9 1 0 [1, 2, 3, 4, 5] 0 1
      (by decide) (by decide) (by decide) (by decide) (by decide)⟩

/-- A receive that hands back a delivery has succeeded. -/
theorem recvH_status_some (e : Exec) (h maxLen timeout : Nat) (d : Delivery)
    (hd : (recvH e h maxLen timeout).2.1 = some d) :
    (recvH e h maxLen timeout).1 = HSX_MBX_STATUS_OK := by
  cases hl : lookupH e h with
  | none =>
      simp only [recvH, hl] at hd
      exact absurd hd (by simp)
  | some entry =>
      cases hq : (e.rings entry.mbxName).dequeue maxLen with
      | none =>
          simp only [recvH, hl, hq] at hd
          exact absurd hd (by simp)
      | some out =>
          obtain ⟨msg, d2, r2⟩ := out
          simp only [recvH, hl, hq]

/-- Claim C9: the hsx_mailbox_recv_info block is written to the caller's
buffer exactly when the RECV succeeds and the info pointer is non-NULL; on
failure, or with a NULL pointer, the caller's buffer is left unchanged, and
passing NULL is not itself an error (the status does not depend on it). -/
theorem recv_info_writeback (e : Exec) (h maxLen timeout : Nat)
    (mem : RecvInfo) :
    ((recvWithInfo e h maxLen timeout true mem).1
      = (recvWithInfo e h maxLen timeout false mem).1) ∧
    ((recvWithInfo e h maxLen timeout true mem).2.2.1 = mem) ∧
    (∀ nul : Bool,
      (recvWithInfo e h maxLen timeout nul mem).1 ≠ HSX_MBX_STATUS_OK →
      (recvWithInfo e h maxLen timeout nul mem).2.2.1 = mem) ∧
    ((recvWithInfo e h maxLen timeout false mem).1 = HSX_MBX_STATUS_OK →
      ∀ d : Delivery, (recvH e h maxLen timeout).2.1 = some d →
        (recvWithInfo e h maxLen timeout false mem).2.2.1
          = { status := 0, length := (d.data.length : Int), flags := d.flags,
              channel := d.channel, src_pid := d.src_pid }) := by
  cases hopt : (recvH e h maxLen timeout).2.1 with
  | none =>
      refine ⟨?_, ?_, ?_, ?_⟩
      · simp only [recvWithInfo, hopt]
      · simp only [recvWithInfo, hopt]
      · intro nul _
        simp only [recvWithInfo, hopt]
      · intro _ d hd
        exact absurd hd (by simp)
  | some d0 =>
      have hok := recvH_status_some e h maxLen timeout d0 hopt
      refine ⟨?_, ?_, ?_, ?_⟩
      · simp only [recvWithInfo, hopt]
      · simp only [recvWithInfo, hopt]
        rw [if_pos trivial]
      · intro nul hne
        have hsame : (recvWithInfo e h maxLen timeout nul mem).1
            = (recvH e h maxLen timeout).1 := by
          simp only [recvWithInfo, hopt]
        rw [hsame] at hne
        exact absurd hok hne
      · intro _ d hd
        rw [Option.some.injEq] at hd
        subst hd
        simp only [recvWithInfo, hopt]
        rw [if_neg (by simp), hok]
        simp [HSX_MBX_STATUS_OK]

/-- Witness for claim C9: receiving from the busy demo executive through
handle 0. -/
theorem recv_info_writeback_witness :
    ((recvWithInfo execBusy 0 64 0 true infoDemo).1
      = (recvWithInfo execBusy 0 64 0 false infoDemo).1) ∧
    ((recvWithInfo execBusy 0 64 0 true infoDemo).2.2.1 = infoDemo) ∧
    (∀ nul : Bool,
      (recvWithInfo execBusy 0 64 0 nul infoDemo).1 ≠ HSX_MBX_STATUS_OK →
      (recvWithInfo execBusy 0 64 0 nul infoDemo).2.2.1 = infoDemo) ∧
    ((recvWithInfo execBusy 0 64 0 false infoDemo).1 = HSX_MBX_STATUS_OK →
      ∀ d : Delivery, (recvH execBusy 0 64 0).2.1 = some d →
        (recvWithInfo execBusy 0 64 0 false infoDemo).2.2.1
          = { status := 0, length := (d.data.length : Int), flags := d.flags,
              channel := d.channel, src_pid := d.src_pid }) :=
  recv_info_writeback execBusy 0 64 0 infoDemo

/-- The wrapper return convention in isolation: a negative value is
returned exactly on failure, and the success value is reported as is. -/
theorem wrapResult_spec (st v : Nat) :
    (wrapResult st v < 0 ↔ st ≠ HSX_MBX_STATUS_OK) ∧
    (st = HSX_MBX_STATUS_OK → wrapResult st v = (v : Int)) := by
  constructor
  · rcases eq_or_ne st HSX_MBX_STATUS_OK with hs | hs
    · rw [wrapResult, if_pos hs]
      constructor
      · intro hlt
        exact absurd hlt (by omega)
      · intro hne
        exact absurd hs hne
    · rw [wrapResult, if_neg hs]
      have h0 : 0 < st := Nat.pos_of_ne_zero (by simpa [HSX_MBX_STATUS_OK] using hs)
      constructor
      · intro _
        exact hs
      · intro _
        omega
  · intro hs
    rw [wrapResult, if_pos hs]

/-- Claim C10: every user-space wrapper returns a nonnegative value (handle
or byte count) exactly on success and a strictly negative value exactly on
failure, so the single test `result < 0` detects every error. -/
theorem wrapper_sign (e : Exec) (target : List Nat)
    (h flags channel maxLen timeout : Nat) (p : List Nat) (nul : Bool)
    (mem : RecvInfo) :
    ((hsx_mailbox_open e target flags).1 < 0 ↔
      (openName e target flags).1 ≠ HSX_MBX_STATUS_OK) ∧
    ((openName e target flags).1 = HSX_MBX_STATUS_OK →
      (hsx_mailbox_open e target flags).1
        = ((openName e target flags).2.1 : Int)) ∧
    ((hsx_mailbox_close e h).1 < 0 ↔ (closeH e h).1 ≠ HSX_MBX_STATUS_OK) ∧
    ((hsx_mailbox_send e h p flags channel).1 < 0 ↔
      (sendH e h channel flags p).1 ≠ HSX_MBX_STATUS_OK) ∧
    ((sendH e h channel flags p).1 = HSX_MBX_STATUS_OK →
      (hsx_mailbox_send e h p flags channel).1 = (p.length : Int)) ∧
    ((hsx_mailbox_recv e h maxLen timeout nul mem).1 < 0 ↔
      (recvWithInfo e h maxLen timeout nul mem).1 ≠ HSX_MBX_STATUS_OK) ∧
    ((recvWithInfo e h maxLen timeout nul mem).1 = HSX_MBX_STATUS_OK →
      (hsx_mailbox_recv e h maxLen timeout nul mem).1
        = ((recvWithInfo e h maxLen timeout nul mem).2.1.length : Int)) ∧
    ((hsx_mailbox_send_basic e h p).1 < 0 ↔
      (sendH e h 0 0 p).1 ≠ HSX_MBX_STATUS_OK) ∧
    ((hsx_mailbox_recv_basic e h maxLen mem).1 < 0 ↔
      (recvWithInfo e h maxLen HSX_MBX_TIMEOUT_INFINITE true mem).1
        ≠ HSX_MBX_STATUS_OK) :=
  ⟨(wrapResult_spec _ _).1, (wrapResult_spec _ _).2,
    (wrapResult_spec _ _).1, (wrapResult_spec _ _).1,
    (wrapResult_spec _ _).2, (wrapResult_spec _ _).1,
    (wrapResult_spec _ _).2, (wrapResult_spec _ _).1,
    (wrapResult_spec _ _).1⟩

/-- Witness for claim C10: the sign convention at a concrete executive
state and arguments. -/
theorem wrapper_sign_witness :
    ((hsx_mailbox_open execBusy (strBytes "app:demo") 3).1 < 0 ↔
      (openName execBusy (strBytes "app:demo") 3).1 ≠ HSX_MBX_STATUS_OK) ∧
    ((openName execBusy (strBytes "app:demo") 3).1 = HSX_MBX_STATUS_OK →
      (hsx_mailbox_open execBusy (strBytes "app:demo") 3).1
        = ((openName execBusy (strBytes "app:demo") 3).2.1 : Int)) ∧
    ((hsx_mailbox_close execBusy 0).1 < 0 ↔
      (closeH execBusy 0).1 ≠ HSX_MBX_STATUS_OK) ∧
    ((hsx_mailbox_send execBusy 0 [3, 4] 0 1).1 < 0 ↔
      (sendH execBusy 0 1 0 [3, 4]).1 ≠ HSX_MBX_STATUS_OK) ∧
    ((sendH execBusy 0 1 0 [3, 4]).1 = HSX_MBX_STATUS_OK →
      (hsx_mailbox_send execBusy 0 [3, 4] 0 1).1 = (([3, 4] : List Nat).length : Int)) ∧
    ((hsx_mailbox_recv execBusy 0 64 0 true infoDemo).1 < 0 ↔
      (recvWithInfo execBusy 0 64 0 true infoDemo).1 ≠ HSX_MBX_STATUS_OK) ∧
    ((recvWithInfo execBusy 0 64 0 true infoDemo).1 = HSX_MBX_STATUS_OK →
      (hsx_mailbox_recv execBusy 0 64 0 true infoDemo).1
        = ((recvWithInfo execBusy 0 64 0 true infoDemo).2.1.length : Int)) ∧
    ((hsx_mailbox_send_basic execBusy 0 [3, 4]).1 < 0 ↔
      (sendH execBusy 0 0 0 [3, 4]).1 ≠ HSX_MBX_STATUS_OK) ∧
    ((hsx_mailbox_recv_basic execBusy 0 64 infoDemo).1 < 0 ↔
      (recvWithInfo execBusy 0 64 HSX_MBX_TIMEOUT_INFINITE true infoDemo).1
        ≠ HSX_MBX_STATUS_OK) :=
  wrapper_sign execBusy (strBytes "app:demo") 0 3 1 64 0 [3, 4] true infoDemo

end HSX
